import Mathlib

/-!
Shallow embedding of the analysis pipeline of the Smart Code Review API
(`BackendAPI-main.py`): the complexity analyzer, the rule-based fallback
analyzer, the generative-analyzer wrapper, the review assembler
(`review_code`), and the review-store listing (`list_reviews`), together
with theorems settling the frozen claims about them.

Python strings are modelled as Lean `String`; Python `str.split('\n')` as
`String.splitOn "\n"`; the regular expressions of the source are embedded
as explicit character scans.  Machine integers are `Nat`/`Int`.
-/

namespace CodeReview

/-! ### Character classes (ASCII, as used by the source's regexes) -/

/-- Word character for the regex `\b` boundary: `[A-Za-z0-9_]`. -/
def isWordChar (c : Char) : Bool :=
  c.isAlpha || c.isDigit || c == '_'

/-- Whitespace for the regex `\s` (ASCII). -/
def isPySpace (c : Char) : Bool :=
  c == ' ' || c == '\t' || c == '\n' || c == '\r' || c == '\x0b' || c == '\x0c'

/-- Lowercase ASCII letter, the regex class `[a-z]`. -/
def isLowerAZ (c : Char) : Bool :=
  'a' ≤ c && c ≤ 'z'

/-- A word boundary `\b` sits before a word character when the previous
character (if any) is not a word character. -/
def boundaryOk : Option Char → Bool
  | none => true
  | some p => !isWordChar p

/-! ### Substring search (Python's `in` operator on `str`) -/

/-- Does the list start with the given pattern? -/
def listStartsWith : List Char → List Char → Bool
  | _, [] => true
  | [], _ :: _ => false
  | c :: cs, p :: ps => c == p && listStartsWith cs ps

/-- Does the list contain the pattern as a contiguous subsequence? -/
def listContainsSeq : List Char → List Char → Bool
  | [], pat => pat.isEmpty
  | c :: cs, pat => listStartsWith (c :: cs) pat || listContainsSeq cs pat

/-- Python's `pat in s` substring test. -/
def containsStr (s pat : String) : Bool :=
  listContainsSeq s.toList pat.toList

/-- Split a character list at every `'\n'`, keeping empty fields;
`acc` holds the current field reversed. -/
def splitLinesAux : List Char → List Char → List String
  | [], acc => [String.mk acc.reverse]
  | c :: cs, acc =>
    if c = '\n' then String.mk acc.reverse :: splitLinesAux cs []
    else splitLinesAux cs (c :: acc)

/-- Python's `code.split('\n')`: yields `[""]` on the empty string and
keeps trailing empty fields. -/
def pyLines (code : String) : List String :=
  splitLinesAux code.toList []

/-! ### Embedded regex checks of the fallback analyzer -/

/-- After the matched `[a-z]`, the regex `\s*=\s*` succeeds iff the first
non-whitespace character that follows is `=` (the trailing `\s*` is
zero-width-satisfiable). -/
def skipSpacesThenEq : List Char → Bool
  | [] => false
  | c :: cs => if isPySpace c then skipSpacesThenEq cs else c == '='

/-- `re.search(r'\b[a-z]\s*=\s*', line)` scanning with the previous
character tracked for the word boundary. -/
def shortVarScan : Option Char → List Char → Bool
  | _, [] => false
  | prev, c :: cs =>
    (boundaryOk prev && isLowerAZ c && skipSpacesThenEq cs) || shortVarScan (some c) cs

/-- `re.search(r'\b[a-z]\s*=\s*', line)` on a whole line. -/
def shortVarCheck (line : String) : Bool :=
  shortVarScan none line.toList

/-- `re.search(r'\b(print|console\.log)\(', line)` scanning. -/
def debugScan : Option Char → List Char → Bool
  | _, [] => false
  | prev, c :: cs =>
    (boundaryOk prev &&
      (listStartsWith (c :: cs) "print(".toList ||
       listStartsWith (c :: cs) "console.log(".toList)) || debugScan (some c) cs

/-- `re.search(r'\b(print|console\.log)\(', line)` on a whole line. -/
def debugCheck (line : String) : Bool :=
  debugScan none line.toList

/-- Is the character after the first `n` positions absent or a non-word
character (the trailing `\b` of a whole-word match)? -/
def nonWordAt (cs : List Char) (n : Nat) : Bool :=
  match cs.drop n with
  | [] => true
  | d :: _ => !isWordChar d

/-- Does one of the control-flow keywords `if|for|while|switch|case` match
at the head of the list, with a trailing word boundary? The keywords have
pairwise distinct first letters, so at most one matches at a position. -/
def kwAt (cs : List Char) : Bool :=
  (listStartsWith cs "if".toList && nonWordAt cs 2) ||
  (listStartsWith cs "for".toList && nonWordAt cs 3) ||
  (listStartsWith cs "while".toList && nonWordAt cs 5) ||
  (listStartsWith cs "switch".toList && nonWordAt cs 6) ||
  (listStartsWith cs "case".toList && nonWordAt cs 4)

/-- Number of matches of `re.findall(r'\b(if|for|while|switch|case)\b', code)`:
whole-word matches cannot overlap, so counting match positions equals the
`findall` count. -/
def countControl : Option Char → List Char → Nat
  | _, [] => 0
  | prev, c :: cs =>
    (if boundaryOk prev && kwAt (c :: cs) then 1 else 0) + countControl (some c) cs

/-! ### Complexity analyzer (`analyze_code_complexity`) -/

/-- Count of leading whitespace characters:
`len(line) - len(line.lstrip())`. -/
def leadingWsCount : List Char → Nat
  | [] => 0
  | c :: cs => if isPySpace c then leadingWsCount cs + 1 else 0

/-- Result record of `analyze_code_complexity`. -/
structure Complexity where
  total_lines : Nat
  code_lines : Nat
  max_nesting : Nat
  control_structures : Nat
  complexity_score : Nat
deriving DecidableEq, Repr

/-- `analyze_code_complexity(code)` from the source: line counts, maximum
`indent // 4` nesting, whole-word control-keyword count, and
`complexity_score = min(100, max_nesting*10 + control_structures*2)`. -/
def analyze_code_complexity (code : String) : Complexity :=
  let lines := pyLines code
  let non_empty_lines := lines.filter (fun l => l.toList.any (fun c => !isPySpace c))
  let max_nesting := lines.foldl (fun m l => max m (leadingWsCount l.toList / 4)) 0
  let control_structures := countControl none code.toList
  { total_lines := lines.length
    code_lines := non_empty_lines.length
    max_nesting := max_nesting
    control_structures := control_structures
    complexity_score := min 100 (max_nesting * 10 + control_structures * 2) }

/-! ### Data model -/

/-- A raw issue dictionary as it appears in an analyzer payload.  Every
field is optional because the assembler (`review_code`) reads each one with
`dict.get(key, default)`. -/
structure RawIssue where
  severity : Option String := none
  title : Option String := none
  description : Option String := none
  line : Option Int := none
  impact : Option String := none
  fix_time : Option String := none
  business_impact : Option String := none
  suggestion : Option String := none
  auto_fix_available : Option Bool := none
deriving DecidableEq, Repr

/-- The analyzer result payload (the decoded JSON dict, or the fallback
analyzer's dict).  Fields are optional because `review_code` reads each
with `llm_result.get(key, default)`. -/
structure Payload where
  score : Option Int := none
  issues : Option (List RawIssue) := none
  metrics : Option (List (String × String)) := none
  team_insights : Option (List String) := none
deriving DecidableEq, Repr

/-- An assembled `Issue` pydantic model. -/
structure Issue where
  id : Nat
  severity : String
  title : String
  description : String
  line : Int
  impact : String
  fix_time : String
  business_impact : String
  suggestion : String
  auto_fix_available : Bool
  code_snippet : Option String := none
deriving DecidableEq, Repr

/-- An assembled `ReviewResponse` pydantic model. -/
structure ReviewResponse where
  review_id : String
  score : Int
  improvement : String
  priority : List Issue
  metrics : List (String × String)
  team_insights : List String
  timestamp : String
deriving DecidableEq, Repr

/-! ### Rule-based fallback analyzer (`generate_fallback_review`) -/

/-- The TODO/FIXME issue dict appended for 1-based line `n`. -/
def todoIssue (n : Nat) : RawIssue :=
  { severity := some "low"
    title := some "Unresolved TODO/FIXME"
    description := some ("Line " ++ toString n ++ " contains unresolved TODO or FIXME comment")
    line := some (n : Int)
    impact := some "Low"
    fix_time := some "5 min"
    business_impact := some "Code maintainability"
    suggestion := some "Address the TODO or create a ticket to track it"
    auto_fix_available := some false }

/-- The debug-statement issue dict appended for 1-based line `n`. -/
def debugIssue (n : Nat) : RawIssue :=
  { severity := some "low"
    title := some "Debug Statement Found"
    description := some ("Line " ++ toString n ++ " contains a print/log statement that should be removed")
    line := some (n : Int)
    impact := some "Low"
    fix_time := some "1 min"
    business_impact := some "Production logs pollution"
    suggestion := some "Remove debug statement or use proper logging"
    auto_fix_available := some true }

/-- The single-letter-variable issue dict appended for 1-based line `n`. -/
def shortVarIssue (n : Nat) : RawIssue :=
  { severity := some "low"
    title := some "Non-descriptive Variable Name"
    description := some ("Line " ++ toString n ++ " uses a single-letter variable name")
    line := some (n : Int)
    impact := some "Low"
    fix_time := some "2 min"
    business_impact := some "Code readability"
    suggestion := some "Use a descriptive variable name"
    auto_fix_available := some false }

/-- The incomplete-error-handling issue dict appended for 1-based line `n`. -/
def tryIssue (n : Nat) : RawIssue :=
  { severity := some "medium"
    title := some "Incomplete Error Handling"
    description := some ("Line " ++ toString n ++ " has try block without except clause")
    line := some (n : Int)
    impact := some "Medium"
    fix_time := some "10 min"
    business_impact := some "Potential unhandled exceptions"
    suggestion := some "Add except clause with proper error handling"
    auto_fix_available := some true }

/-- With 0-based line index `idx` (1-based line `idx+1`), the source's
`for j in range(i, min(i+20, len(lines)))` loop checks the 0-based lines
`idx+1 .. min(idx+21, len)-1` for an `'except'` substring. -/
def hasExceptWindow (lines : List String) (idx : Nat) : Bool :=
  (List.range' (idx+1) (min (idx+21) lines.length - (idx+1))).any
    (fun j => containsStr (lines.getD j "") "except")

/-- The issue dicts appended by one iteration of the scan loop of
`generate_fallback_review`, for the line at 0-based index `idx`, in the
source's append order. -/
def lineIssues (lines : List String) (idx : Nat) (line : String) : List RawIssue :=
  (if containsStr line "TODO" || containsStr line "FIXME" then [todoIssue (idx+1)] else []) ++
  (if debugCheck line then [debugIssue (idx+1)] else []) ++
  (if shortVarCheck line && !containsStr line "for" then [shortVarIssue (idx+1)] else []) ++
  (if containsStr line "try:" && !hasExceptWindow lines idx then [tryIssue (idx+1)] else [])

/-- All issue dicts accumulated by the scan loop of
`generate_fallback_review`, before the `issues[:10]` truncation. -/
def scanIssues (code : String) : List RawIssue :=
  let lines := pyLines code
  (lines.enum.map (fun p => lineIssues lines p.1 p.2)).flatten

/-- `generate_fallback_review(code, language)`: scan issues (truncated to
the first 10), `score = max(50, 100 - complexity_score)`, the fixed-shape
metrics with the `< 50` complexity threshold, and three constant
insights.  The `language` argument is unused by the source as well. -/
def generate_fallback_review (code _lang : String) : Payload :=
  let complexity := analyze_code_complexity code
  { score := some ((max 50 (100 - complexity.complexity_score) : Nat) : Int)
    issues := some ((scanIssues code).take 10)
    metrics := some
      [("complexity", if complexity.complexity_score < 50 then "Medium" else "High"),
       ("maintainability", "Good"),
       ("security", "Needs Review"),
       ("performance", "Good")]
    team_insights := some
      ["Consider adding more comments for complex logic",
       "Follow consistent naming conventions",
       "Add unit tests for critical functions"] }

/-! ### Generative analyzer wrapper (`generate_llm_review`) -/

/-- `re.search(r'\{.*\}', content, re.DOTALL)` with greedy `.*`: the match,
when it exists, runs from the first `'\x7b'` to the last `'\x7d'`, and exists
iff some `'\x7d'` occurs strictly after some `'\x7b'`. -/
def extractJson (content : String) : Option String :=
  let cs := content.toList
  match cs.findIdx? (· == '{'), cs.reverse.findIdx? (· == '}') with
  | some i, some rj =>
    let j := cs.length - 1 - rj
    if i < j then some (String.mk ((cs.drop i).take (j - i + 1))) else none
  | _, _ => none

/-- `generate_llm_review(code, language, team_context)`, with the external
completion call abstracted as its outcome `callResult` (`.error` = the call
raised) and `json.loads` abstracted as `decode` (`none` = decoding raised).
Every failure branch returns the fallback analyzer's output; the function
is total, so no error escapes to the caller. -/
def generate_llm_review (callResult : Except String String)
    (decode : String → Option Payload) (code lang : String) : Payload :=
  match callResult with
  | .error _ => generate_fallback_review code lang
  | .ok content =>
    match extractJson content with
    | none => generate_fallback_review code lang
    | some s =>
      match decode s with
      | none => generate_fallback_review code lang
      | some payload => payload

/-! ### Review assembler (`review_code`) -/

/-- `calculate_improvement(current_score, team_id)`: signed delta against
the hardcoded previous average 70. -/
def calculate_improvement (current_score : Int) : String :=
  let diff := current_score - 70
  if diff > 0 then "+" ++ toString diff else toString diff

/-- One step of the issue-formatting loop of `review_code`: 0-based
enumeration index `idx` becomes the 1-based `id`, and each missing payload
field gets the source's default. -/
def assembleIssue (idx : Nat) (raw : RawIssue) : Issue :=
  { id := idx + 1
    severity := raw.severity.getD "low"
    title := raw.title.getD "Unknown Issue"
    description := raw.description.getD ""
    line := raw.line.getD 1
    impact := raw.impact.getD "Low"
    fix_time := raw.fix_time.getD "10 min"
    business_impact := raw.business_impact.getD "Minor impact"
    suggestion := raw.suggestion.getD "Review and fix"
    auto_fix_available := raw.auto_fix_available.getD false }

/-- The pure core of the `review_code` endpoint: assemble a
`ReviewResponse` from an analyzer payload.  The generated review id and
the timestamp are wall-clock inputs, passed in as parameters. -/
def review_code (payload : Payload) (review_id timestamp : String) : ReviewResponse :=
  let score := payload.score.getD 75
  { review_id := review_id
    score := score
    improvement := calculate_improvement score
    priority := (payload.issues.getD []).enum.map (fun p => assembleIssue p.1 p.2)
    metrics := payload.metrics.getD
      [("complexity", "Medium"), ("maintainability", "Good"),
       ("security", "Good"), ("performance", "Good")]
    team_insights := payload.team_insights.getD
      ["Code follows team conventions", "Consider adding more test coverage"]
    timestamp := timestamp }

/-- `submit_review` — the whole pipeline behind `POST /api/review`:
generative analyzer (with abstracted completion outcome and decoder)
feeding the assembler. -/
def submit_review (callResult : Except String String)
    (decode : String → Option Payload) (code lang review_id timestamp : String) :
    ReviewResponse :=
  review_code (generate_llm_review callResult decode code lang) review_id timestamp

/-! ### Review store listing (`list_reviews`) -/

/-- Result shape of `GET /api/reviews`. -/
structure ListReviewsResult where
  total : Nat
  reviews : List ReviewResponse
deriving DecidableEq, Repr

/-- `list_reviews(limit)` over a store held in insertion order:
`list(reviews_db.values())[-limit:]` plus `len(reviews_db)`.  For a
nonnegative `limit`, Python's `[-limit:]` is the length-`limit` suffix
when `limit > 0` but the WHOLE list when `limit = 0` (since `-0 == 0`). -/
def list_reviews (limit : Nat) (store : List ReviewResponse) : ListReviewsResult :=
  { total := store.length
    reviews := if limit = 0 then store else store.drop (store.length - limit) }

/-! ### Helper lemmas -/

lemma mem_guard {α : Type} {c : Bool} {e a : α} (h : a ∈ (if c then [e] else [])) :
    c = true ∧ a = e := by
  cases c with
  | false => simp at h
  | true => simp at h; exact ⟨rfl, h⟩

lemma enumFrom_getD_mem {α : Type} (d : α) :
    ∀ (l : List α) (s i : Nat), i < l.length → (s + i, l.getD i d) ∈ List.enumFrom s l := by
  intro l
  induction l with
  | nil => intro s i h; simp at h
  | cons a t ih =>
    intro s i h
    cases i with
    | zero => simp [List.enumFrom]
    | succ n =>
      have hn : n < t.length := by simpa using h
      have := ih (s+1) n hn
      have heq : s + (n + 1) = (s + 1) + n := by omega
      simp only [List.enumFrom, List.getD_cons_succ, heq]
      exact List.mem_cons_of_mem _ this

lemma mem_enumFrom_getD {α : Type} (d : α) :
    ∀ (l : List α) (s : Nat) (p : Nat × α), p ∈ List.enumFrom s l →
      s ≤ p.1 ∧ p.1 - s < l.length ∧ p.2 = l.getD (p.1 - s) d := by
  intro l
  induction l with
  | nil => intro s p h; simp [List.enumFrom] at h
  | cons a t ih =>
    intro s p h
    simp only [List.enumFrom, List.mem_cons] at h
    rcases h with h | h
    · subst h; simp
    · obtain ⟨h1, h2, h3⟩ := ih (s+1) p h
      refine ⟨by omega, by simp; omega, ?_⟩
      have : p.1 - s = (p.1 - (s+1)) + 1 := by omega
      rw [this, List.getD_cons_succ]
      exact h3

/-- Every emitted issue comes from the per-line check at some in-range
0-based index, applied to that line. -/
lemma scanIssues_source {code : String} {issue : RawIssue}
    (h : issue ∈ scanIssues code) :
    ∃ j, j < (pyLines code).length ∧
      issue ∈ lineIssues (pyLines code) j ((pyLines code).getD j "") := by
  unfold scanIssues at h
  rcases List.mem_flatten.mp h with ⟨l', hl', hmem⟩
  rcases List.mem_map.mp hl' with ⟨p, hp, rfl⟩
  obtain ⟨-, h2, h3⟩ := mem_enumFrom_getD "" (pyLines code) 0 p hp
  simp only [Nat.sub_zero] at h2 h3
  exact ⟨p.1, h2, h3 ▸ hmem⟩

/-- Conversely, anything the per-line check emits at an in-range index is
in the emitted issue list. -/
lemma scanIssues_target {code : String} {issue : RawIssue} {j : Nat}
    (hj : j < (pyLines code).length)
    (h : issue ∈ lineIssues (pyLines code) j ((pyLines code).getD j "")) :
    issue ∈ scanIssues code := by
  unfold scanIssues
  refine List.mem_flatten.mpr ⟨lineIssues (pyLines code) j ((pyLines code).getD j ""), ?_, h⟩
  refine List.mem_map.mpr ⟨(j, (pyLines code).getD j ""), ?_, rfl⟩
  simpa using enumFrom_getD_mem "" (pyLines code) 0 j hj

/-- Inversion: the four possible shapes of an emitted per-line issue,
with the condition that guards each. -/
lemma mem_lineIssues {issue : RawIssue} {lines : List String} {j : Nat} {x : String}
    (h : issue ∈ lineIssues lines j x) :
    (issue = todoIssue (j+1) ∧ (containsStr x "TODO" || containsStr x "FIXME") = true) ∨
    (issue = debugIssue (j+1) ∧ debugCheck x = true) ∨
    (issue = shortVarIssue (j+1) ∧ (shortVarCheck x && !containsStr x "for") = true) ∨
    (issue = tryIssue (j+1) ∧ (containsStr x "try:" && !hasExceptWindow lines j) = true) := by
  unfold lineIssues at h
  rcases List.mem_append.mp h with h | h
  · rcases List.mem_append.mp h with h | h
    · rcases List.mem_append.mp h with h | h
      · obtain ⟨hc, he⟩ := mem_guard h
        exact Or.inl ⟨he, hc⟩
      · obtain ⟨hc, he⟩ := mem_guard h
        exact Or.inr (Or.inl ⟨he, hc⟩)
    · obtain ⟨hc, he⟩ := mem_guard h
      exact Or.inr (Or.inr (Or.inl ⟨he, hc⟩))
  · obtain ⟨hc, he⟩ := mem_guard h
    exact Or.inr (Or.inr (Or.inr ⟨he, hc⟩))

lemma todoIssue_mem_lineIssues {lines : List String} {idx : Nat} {x : String}
    (h : (containsStr x "TODO" || containsStr x "FIXME") = true) :
    todoIssue (idx+1) ∈ lineIssues lines idx x := by
  unfold lineIssues
  rw [if_pos h]
  simp [List.mem_append]

lemma shortVarIssue_mem_lineIssues {lines : List String} {idx : Nat} {x : String}
    (h : (shortVarCheck x && !containsStr x "for") = true) :
    shortVarIssue (idx+1) ∈ lineIssues lines idx x := by
  unfold lineIssues
  rw [if_pos h]
  simp [List.mem_append]

lemma tryIssue_mem_lineIssues {lines : List String} {idx : Nat} {x : String}
    (h : (containsStr x "try:" && !hasExceptWindow lines idx) = true) :
    tryIssue (idx+1) ∈ lineIssues lines idx x := by
  unfold lineIssues
  rw [if_pos h]
  simp [List.mem_append]

/-- The fallback score is `max 50 (100 - complexity_score)`, hence within
`[50, 100]`. -/
lemma fallback_score_bounds (code lang : String) :
    ∃ n : Int, (generate_fallback_review code lang).score = some n ∧ 50 ≤ n ∧ n ≤ 100 := by
  refine ⟨((max 50 (100 - (analyze_code_complexity code).complexity_score) : Nat) : Int),
    rfl, ?_, ?_⟩
  · exact_mod_cast Nat.le_max_left 50 _
  · have h1 : 100 - (analyze_code_complexity code).complexity_score ≤ 100 := Nat.sub_le _ _
    have h2 : max 50 (100 - (analyze_code_complexity code).complexity_score) ≤ 100 :=
      Nat.max_le.mpr ⟨by omega, h1⟩
    exact_mod_cast h2

/-! ### Claim C1 -/

/-- A decoder outcome whose payload carries an out-of-range score. -/
def badDecode : String → Option Payload :=
  fun _ => some { score := some 150 }

/-- Claim C1, counterexample: when the generative path succeeds with a
decoded payload whose score is 150, `submit_review` returns score 150,
which is not in [0,100] — the assembler never clamps. -/
theorem submit_review_score_unclamped :
    ¬((submit_review (.ok "{}") badDecode "" "python" "rid" "ts").score ≤ 100) := by
  decide

/-- Claim C1 (amended): the returned score is in [0,100] on the fallback
path and whenever every score carried by a decoded payload is itself in
[0,100] (a missing score defaults to 75); the assembler passes a decoded
payload's score through without clamping. -/
theorem submit_review_score_in_range
    (callResult : Except String String) (decode : String → Option Payload)
    (code lang rid ts : String)
    (h : ∀ s p, decode s = some p → ∀ n, p.score = some n → 0 ≤ n ∧ n ≤ 100) :
    0 ≤ (submit_review callResult decode code lang rid ts).score ∧
      (submit_review callResult decode code lang rid ts).score ≤ 100 := by
  obtain ⟨m, hm, hm1, hm2⟩ := fallback_score_bounds code lang
  cases callResult with
  | error e =>
    simp [submit_review, generate_llm_review, review_code, hm]
    omega
  | ok content =>
    cases hEx : extractJson content with
    | none =>
      simp [submit_review, generate_llm_review, review_code, hEx, hm]
      omega
    | some s =>
      cases hDec : decode s with
      | none =>
        simp [submit_review, generate_llm_review, review_code, hEx, hDec, hm]
        omega
      | some p =>
        simp [submit_review, generate_llm_review, review_code, hEx, hDec]
        cases hs : p.score with
        | none => simp [hs]
        | some n =>
          have := h s p hDec n hs
          simp [hs]
          omega

theorem submit_review_score_in_range_witness :
    0 ≤ (submit_review (.error "down") (fun _ => none) "" "python" "rid" "ts").score ∧
      (submit_review (.error "down") (fun _ => none) "" "python" "rid" "ts").score ≤ 100 :=
  submit_review_score_in_range (.error "down") (fun _ => none) "" "python" "rid" "ts"
    (fun _ _ hp => nomatch hp)

/-! ### Claim C2 -/

/-- Claim C2: if the completion call raises, or its response has no
brace-delimited substring, or the extracted substring fails to decode,
then `generate_llm_review` returns exactly the fallback analyzer's output
on the same (code, language); totality of the embedding reflects that no
error is surfaced. -/
theorem generate_llm_review_fallback_on_failure
    (callResult : Except String String) (decode : String → Option Payload)
    (code lang : String)
    (h : (∃ e, callResult = .error e) ∨
         (∃ c, callResult = .ok c ∧
           (extractJson c = none ∨ ∃ s, extractJson c = some s ∧ decode s = none))) :
    generate_llm_review callResult decode code lang = generate_fallback_review code lang := by
  rcases h with ⟨e, rfl⟩ | ⟨c, rfl, hc⟩
  · rfl
  · rcases hc with hnone | ⟨s, hs, hd⟩
    · simp [generate_llm_review, hnone]
    · simp [generate_llm_review, hs, hd]

theorem generate_llm_review_fallback_on_failure_witness :
    generate_llm_review (.error "service unreachable") (fun _ => none) "" "python" =
      generate_fallback_review "" "python" :=
  generate_llm_review_fallback_on_failure (.error "service unreachable") (fun _ => none)
    "" "python" (Or.inl ⟨"service unreachable", rfl⟩)

/-! ### Claim C4 -/

lemma assemble_ids_enumFrom :
    ∀ (l : List RawIssue) (s : Nat),
      (List.enumFrom s l).map (fun p => (assembleIssue p.1 p.2).id) =
        List.range' (s+1) l.length := by
  intro l
  induction l with
  | nil => intro s; rfl
  | cons a t ih =>
    intro s
    simp only [List.enumFrom, List.map_cons, List.length_cons, List.range'_succ]
    rw [ih]
    rfl

/-- Claim C4: for every payload the assembler consumes (any issue list,
including the empty one and an absent field), the ids of the returned
priority list are exactly the contiguous sequence 1..N in payload order. -/
theorem review_code_ids_contiguous (payload : Payload) (rid ts : String) :
    (review_code payload rid ts).priority.map (fun issue => issue.id) =
      List.range' 1 (payload.issues.getD []).length := by
  show ((payload.issues.getD []).enum.map (fun p => assembleIssue p.1 p.2)).map
      (fun issue => issue.id) = _
  rw [List.map_map]
  exact assemble_ids_enumFrom (payload.issues.getD []) 0

/-! ### Claim C3 -/

/-- Claim C3, counterexample: the fallback analyzer on the empty string
returns score 100, not 50 — `max(50, 100 - 0) = 100`. -/
theorem fallback_empty_score_not_50 :
    (generate_fallback_review "" "python").score ≠ some 50 := by
  decide

/-- Claim C3 (amended): the fallback analyzer on the empty string returns
score exactly 100 (complexity score 0, so `max(50, 100 - 0)`), an empty
issue list, and complexity metric rating "Medium". -/
theorem fallback_empty_characterization :
    (generate_fallback_review "" "python").score = some 100 ∧
    (generate_fallback_review "" "python").issues = some [] ∧
    (generate_fallback_review "" "python").metrics =
      some [("complexity", "Medium"), ("maintainability", "Good"),
            ("security", "Needs Review"), ("performance", "Good")] := by
  decide

/-! ### Claim C5 -/

/-- Ten debug-statement lines followed by a TODO line: the TODO issue is
the eleventh match and falls to the `issues[:10]` truncation. -/
def c5code : String :=
  "print(a)\nprint(a)\nprint(a)\nprint(a)\nprint(a)\nprint(a)\nprint(a)\nprint(a)\nprint(a)\nprint(a)\n# TODO"

/-- Claim C5, counterexample: line 11 of `c5code` contains a TODO marker,
yet the fallback analyzer's returned issue list (truncated to the first
10 matches) contains no "Unresolved TODO/FIXME" issue at all. -/
theorem fallback_todo_truncated_out :
    containsStr ((pyLines c5code).getD 10 "") "TODO" = true ∧
    (((generate_fallback_review c5code "python").issues.getD []).all
      (fun issue => !(issue.title == some "Unresolved TODO/FIXME"))) = true := by
  decide

/-- Claim C5 (amended): every line containing a TODO or FIXME marker
yields a low-severity "Unresolved TODO/FIXME" issue with that line's
1-based number in the scan's emitted issue list, before the truncation to
the first 10 issues (so it reaches the returned list whenever fewer than
10 issues precede it). -/
theorem fallback_todo_emitted (code : String) (i : Nat)
    (hi : i < (pyLines code).length)
    (h : (containsStr ((pyLines code).getD i "") "TODO" ||
          containsStr ((pyLines code).getD i "") "FIXME") = true) :
    (scanIssues code).any
      (fun issue => issue.severity == some "low" &&
        issue.title == some "Unresolved TODO/FIXME" &&
        issue.line == some ((i+1 : Nat) : Int)) = true := by
  rw [List.any_eq_true]
  exact ⟨todoIssue (i+1), scanIssues_target hi (todoIssue_mem_lineIssues h),
    by simp [todoIssue]⟩

theorem fallback_todo_emitted_witness :
    (scanIssues "# TODO").any
      (fun issue => issue.severity == some "low" &&
        issue.title == some "Unresolved TODO/FIXME" &&
        issue.line == some ((0+1 : Nat) : Int)) = true :=
  fallback_todo_emitted "# TODO" 0 (by decide) (by decide)

/-! ### Claim C6 -/

/-- Ten debug-statement lines followed by a bare `try:` on the last line:
the incomplete-error-handling issue is the eleventh match and falls to
the `issues[:10]` truncation. -/
def c6code : String :=
  "print(a)\nprint(a)\nprint(a)\nprint(a)\nprint(a)\nprint(a)\nprint(a)\nprint(a)\nprint(a)\nprint(a)\ntry:"

/-- Claim C6, counterexample: line 11 of `c6code` opens a try block with
no except clause in the lookahead window, yet the fallback analyzer's
returned issue list (truncated to the first 10 matches) contains no
"Incomplete Error Handling" issue. -/
theorem fallback_try_truncated_out :
    containsStr ((pyLines c6code).getD 10 "") "try:" = true ∧
    hasExceptWindow (pyLines c6code) 10 = false ∧
    (((generate_fallback_review c6code "python").issues.getD []).all
      (fun issue => !(issue.title == some "Incomplete Error Handling"))) = true := by
  decide

/-- Claim C6 (amended): a `try:` opener with no `except` within the next
20 lines yields a medium-severity, auto-fixable "Incomplete Error
Handling" issue in the scan's emitted issue list (before the truncation
to the first 10 issues), and an opener that does have an `except` within
that window yields no such issue for that opener anywhere in the emitted
list. -/
theorem fallback_try_window (code : String) (i : Nat)
    (hi : i < (pyLines code).length)
    (htry : containsStr ((pyLines code).getD i "") "try:" = true) :
    (hasExceptWindow (pyLines code) i = false →
      (scanIssues code).any
        (fun issue => issue.severity == some "medium" &&
          issue.title == some "Incomplete Error Handling" &&
          issue.auto_fix_available == some true &&
          issue.line == some ((i+1 : Nat) : Int)) = true) ∧
    (hasExceptWindow (pyLines code) i = true →
      (scanIssues code).all
        (fun issue => !(issue.title == some "Incomplete Error Handling" &&
          issue.line == some ((i+1 : Nat) : Int))) = true) := by
  constructor
  · intro hexc
    rw [List.any_eq_true]
    have hcond : (containsStr ((pyLines code).getD i "") "try:" &&
        !hasExceptWindow (pyLines code) i) = true := by
      rw [htry, hexc]; rfl
    exact ⟨tryIssue (i+1), scanIssues_target hi (tryIssue_mem_lineIssues hcond),
      by simp [tryIssue]⟩
  · intro hexc
    rw [List.all_eq_true]
    intro issue hmem
    obtain ⟨j, hj, hline⟩ := scanIssues_source hmem
    rcases mem_lineIssues hline with ⟨rfl, hc⟩ | ⟨rfl, hc⟩ | ⟨rfl, hc⟩ | ⟨rfl, hc⟩
    · have ht : ((todoIssue (j+1)).title == some "Incomplete Error Handling") = false := rfl
      simp [ht]
    · have ht : ((debugIssue (j+1)).title == some "Incomplete Error Handling") = false := rfl
      simp [ht]
    · have ht : ((shortVarIssue (j+1)).title == some "Incomplete Error Handling") = false := rfl
      simp [ht]
    · by_cases hji : j = i
      · subst hji
        rw [Bool.and_eq_true, Bool.not_eq_true'] at hc
        rw [hc.2] at hexc
        exact absurd hexc (by simp)
      · simp only [tryIssue]
        simp
        omega

theorem fallback_try_window_witness :
    (hasExceptWindow (pyLines "try:\nexcept ValueError:") 0 = false →
      (scanIssues "try:\nexcept ValueError:").any
        (fun issue => issue.severity == some "medium" &&
          issue.title == some "Incomplete Error Handling" &&
          issue.auto_fix_available == some true &&
          issue.line == some ((0+1 : Nat) : Int)) = true) ∧
    (hasExceptWindow (pyLines "try:\nexcept ValueError:") 0 = true →
      (scanIssues "try:\nexcept ValueError:").all
        (fun issue => !(issue.title == some "Incomplete Error Handling" &&
          issue.line == some ((0+1 : Nat) : Int))) = true) :=
  fallback_try_window "try:\nexcept ValueError:" 0 (by decide) (by decide)

/-! ### Claim C7 -/

/-- A concrete stored review for witnesses about the review store. -/
def sampleReview : ReviewResponse :=
  { review_id := "review_20240101_000000"
    score := 75
    improvement := "+5"
    priority := []
    metrics := [("complexity", "Medium"), ("maintainability", "Good"),
                ("security", "Good"), ("performance", "Good")]
    team_insights := ["Code follows team conventions"]
    timestamp := "2024-01-01T00:00:00" }

/-- Claim C7, counterexample: with `limit = 0` and one stored review,
`list_reviews` returns one entry, not at most 0 — Python's `[-0:]` slice
is the whole list. -/
theorem list_reviews_zero_limit :
    ¬((list_reviews 0 [sampleReview]).reviews.length ≤ 0) := by
  decide

/-- Claim C7 (amended): for every positive limit N and every store
contents, `list_reviews(limit=N)` returns at most N entries — exactly
the suffix of most recently inserted reviews in insertion order — and a
total equal to the number of all stored reviews; for `limit = 0` the
whole store is returned instead. -/
theorem list_reviews_bounded (limit : Nat) (store : List ReviewResponse)
    (h : 1 ≤ limit) :
    (list_reviews limit store).total = store.length ∧
    (list_reviews limit store).reviews = store.drop (store.length - limit) ∧
    (list_reviews limit store).reviews.length ≤ limit := by
  have hne : ¬(limit = 0) := by omega
  refine ⟨rfl, by simp [list_reviews, hne], ?_⟩
  simp only [list_reviews, if_neg hne, List.length_drop]
  omega

theorem list_reviews_bounded_witness :
    (list_reviews 1 [sampleReview]).total = [sampleReview].length ∧
    (list_reviews 1 [sampleReview]).reviews =
      [sampleReview].drop ([sampleReview].length - 1) ∧
    (list_reviews 1 [sampleReview]).reviews.length ≤ 1 :=
  list_reviews_bounded 1 [sampleReview] (by decide)

/-! ### Claim C8 -/

/-- The qualitative rating set named by the specification. -/
def allowedRatings : List String :=
  ["Excellent", "Good", "Medium", "Poor", "Needs Review"]

/-- A line of 20 spaces: nesting `20 // 4 = 5` gives complexity score 50,
reaching the `>= 50` branch of the fallback metrics. -/
def c8code : String := "                    "

/-- Claim C8, counterexample: on `c8code` even the fallback path emits the
complexity rating "High", which is outside
{Excellent, Good, Medium, Poor, Needs Review}. -/
theorem fallback_metrics_high_rating :
    ((generate_fallback_review c8code "python").metrics.getD []).contains
      ("complexity", "High") = true ∧
    (((generate_fallback_review c8code "python").metrics.getD []).map Prod.snd).all
      (fun v => allowedRatings.contains v) = false := by
  decide

/-- Claim C8 (amended): every Review assembled from the fallback path has
metrics values drawn from {Good, Medium, High, Needs Review} — "High" (the
complexity rating at score ≥ 50) must be added to the spec's set, and on
the generative path the payload's metrics pass through unvalidated. -/
theorem fallback_metrics_values (code lang rid ts : String) :
    (((review_code (generate_fallback_review code lang) rid ts).metrics).map Prod.snd).all
      (fun v => (allowedRatings ++ ["High"]).contains v) = true := by
  by_cases hc : (analyze_code_complexity code).complexity_score < 50 <;>
    simp [review_code, generate_fallback_review, hc, allowedRatings]

/-! ### Claim C9 -/

/-- Claim C9, counterexample: `"x = effort"` is a single-letter variable
assignment on a line inside no loop at all, yet the fallback analyzer
emits no issue whatsoever: the guard is the substring test
`'for' not in line`, and `"effort"` contains `"for"`. -/
theorem fallback_shortvar_for_substring :
    shortVarCheck "x = effort" = true ∧
    containsStr "x = effort" "for" = true ∧
    (generate_fallback_review "x = effort" "python").issues = some [] := by
  decide

/-- Claim C9 (amended): every line matching the single-letter-assignment
pattern `\b[a-z]\s*=\s*` whose text does not contain the substring "for"
anywhere (the code's stand-in for a loop-control context) yields a
low-severity "Non-descriptive Variable Name" issue in the scan's emitted
issue list, before the truncation to the first 10 issues. -/
theorem fallback_shortvar_emitted (code : String) (i : Nat)
    (hi : i < (pyLines code).length)
    (h1 : shortVarCheck ((pyLines code).getD i "") = true)
    (h2 : containsStr ((pyLines code).getD i "") "for" = false) :
    (scanIssues code).any
      (fun issue => issue.severity == some "low" &&
        issue.title == some "Non-descriptive Variable Name" &&
        issue.line == some ((i+1 : Nat) : Int)) = true := by
  rw [List.any_eq_true]
  have hcond : (shortVarCheck ((pyLines code).getD i "") &&
      !containsStr ((pyLines code).getD i "") "for") = true := by
    rw [h1, h2]; rfl
  exact ⟨shortVarIssue (i+1), scanIssues_target hi (shortVarIssue_mem_lineIssues hcond),
    by simp [shortVarIssue]⟩

theorem fallback_shortvar_emitted_witness :
    (scanIssues "x = 1").any
      (fun issue => issue.severity == some "low" &&
        issue.title == some "Non-descriptive Variable Name" &&
        issue.line == some ((0+1 : Nat) : Int)) = true :=
  fallback_shortvar_emitted "x = 1" 0 (by decide) (by decide) (by decide)

/-! ### Claim C10 -/

/-- Claim C10: the TODO/FIXME detection is case-sensitive — a line
containing neither "TODO" nor "FIXME" as an exact substring (for example
one with only lowercase "todo"/"fixme") yields no "Unresolved TODO/FIXME"
issue carrying that line's number, for every code input. -/
theorem fallback_todo_case_sensitive (code lang : String) (i : Nat)
    (h1 : containsStr ((pyLines code).getD i "") "TODO" = false)
    (h2 : containsStr ((pyLines code).getD i "") "FIXME" = false) :
    (((generate_fallback_review code lang).issues.getD []).all
      (fun issue => !(issue.title == some "Unresolved TODO/FIXME" &&
        issue.line == some ((i+1 : Nat) : Int)))) = true := by
  rw [List.all_eq_true]
  intro issue hmem
  have hmem' : issue ∈ scanIssues code := by
    have hset : (generate_fallback_review code lang).issues.getD [] =
        (scanIssues code).take 10 := rfl
    rw [hset] at hmem
    exact List.mem_of_mem_take hmem
  obtain ⟨j, hj, hline⟩ := scanIssues_source hmem'
  rcases mem_lineIssues hline with ⟨rfl, hc⟩ | ⟨rfl, hc⟩ | ⟨rfl, hc⟩ | ⟨rfl, hc⟩
  · by_cases hji : j = i
    · subst hji
      rw [h1, h2] at hc
      exact absurd hc (by simp)
    · simp only [todoIssue]
      simp
      omega
  · have ht : ((debugIssue (j+1)).title == some "Unresolved TODO/FIXME") = false := rfl
    simp [ht]
  · have ht : ((shortVarIssue (j+1)).title == some "Unresolved TODO/FIXME") = false := rfl
    simp [ht]
  · have ht : ((tryIssue (j+1)).title == some "Unresolved TODO/FIXME") = false := rfl
    simp [ht]

theorem fallback_todo_case_sensitive_witness :
    (((generate_fallback_review "# todo: fixme later" "python").issues.getD []).all
      (fun issue => !(issue.title == some "Unresolved TODO/FIXME" &&
        issue.line == some ((0+1 : Nat) : Int)))) = true :=
  fallback_todo_case_sensitive "# todo: fixme later" "python" 0 (by decide) (by decide)

end CodeReview
